import Mathlib

/-!
Verification development for the MyGarminDash repository (`src/app.py`).

The definitions below are a shallow embedding of the parts of `app.py` the
claims are about: the session grouper `group_activities_into_sessions`, the
heatmap endpoint `get_heatmap_data` (its cached/missing partition and the
generation-tracked scheduler state transition), the background polyline worker
`background_polyline_fetcher` together with its inner `fetch_item`, the retry
facade `garmin_request`, and the AI-insights pipeline
`generate_insights_logic` / `get_ai_insights`.

Python floats are modelled as exact rationals, Python dictionaries as
association lists, and the two external collaborators (the Garmin provider
client and the Gemini model call) as `Except`-valued inputs, following the
spec, which declares both to be opaque external capabilities.
-/

namespace GarminDash

/-- Lexicographic code-point comparison of char lists: models Python string
`<=` as used by `sorted(activities, key=lambda x: x.get('startTimeLocal', ''))`. -/
def chLe : List Char → List Char → Bool
  | [], _ => true
  | _ :: _, [] => false
  | a :: as, b :: bs => if a < b then true else if b < a then false else chLe as bs

/-- Python string `<=` on the two strings. -/
def strLe (a b : String) : Bool := chLe a.data b.data

/-- Models Python `str.lower()` (ASCII range, which covers all strings the
code compares: type keys, activity names, error messages). -/
def lowerStr (s : String) : String := String.mk (s.data.map Char.toLower)

/-- Does the char list `ns` occur starting exactly at the head of `hs`? -/
def isSubAt : List Char → List Char → Bool
  | [], _ => true
  | _ :: _, [] => false
  | a :: as, b :: bs => a == b && isSubAt as bs

/-- Does `ns` occur contiguously anywhere in the second list? -/
def listContainsSub (ns : List Char) : List Char → Bool
  | [] => ns.isEmpty
  | b :: bs => isSubAt ns (b :: bs) || listContainsSub ns bs

/-- Models the Python substring test `needle in hay`. -/
def containsSub (needle hay : String) : Bool := listContainsSub needle.data hay.data

/-- Value of an ASCII digit character, `none` for anything else. -/
def charDigit (c : Char) : Option Nat :=
  if c.isDigit then some (c.toNat - 48) else none

/-- `%Y` in CPython strptime: exactly four digits. -/
def parseYear4 : List Char → Option (Nat × List Char)
  | c1 :: c2 :: c3 :: c4 :: rest => do
    let d1 ← charDigit c1
    let d2 ← charDigit c2
    let d3 ← charDigit c3
    let d4 ← charDigit c4
    pure (((d1 * 10 + d2) * 10 + d3) * 10 + d4, rest)
  | _ => none

/-- A one-or-two digit strptime field: the two-digit alternatives of the
directive's regex are tried first (`ok2` on the two digit values), falling
back to the one-digit alternative (`ok1`). -/
def parseField2 (ok2 : Nat → Nat → Bool) (ok1 : Nat → Bool) :
    List Char → Option (Nat × List Char)
  | [] => none
  | c1 :: rest =>
    match charDigit c1 with
    | none => none
    | some d1 =>
      match rest with
      | c2 :: rest2 =>
        match charDigit c2 with
        | some d2 =>
          if ok2 d1 d2 then some (d1 * 10 + d2, rest2)
          else if ok1 d1 then some (d1, rest) else none
        | none => if ok1 d1 then some (d1, rest) else none
      | [] => if ok1 d1 then some (d1, rest) else none

/-- Consume one literal character. -/
def expectChar (c : Char) : List Char → Option (List Char)
  | [] => none
  | b :: rest => if b == c then some rest else none

/-- Drop any further whitespace (strptime turns a literal blank into `\s+`). -/
def dropWs : List Char → List Char
  | [] => []
  | b :: rest => if b.isWhitespace then dropWs rest else b :: rest

/-- Consume one-or-more whitespace characters. -/
def expectWs : List Char → Option (List Char)
  | [] => none
  | b :: rest => if b.isWhitespace then some (dropWs rest) else none

/-- Gregorian leap-year rule, as in CPython `calendar.isleap`. -/
def isLeapYear (y : Nat) : Bool := y % 4 == 0 && (y % 100 != 0 || y % 400 == 0)

/-- Days in month `m` of year `y`. -/
def daysInMonth (y m : Nat) : Nat :=
  if m == 2 then (if isLeapYear y then 29 else 28)
  else if m == 4 || m == 6 || m == 9 || m == 11 then 30 else 31

/-- Days in year `y` before month `m`. -/
def daysBeforeMonth (y m : Nat) : Nat :=
  (List.range (m - 1)).foldl (fun acc i => acc + daysInMonth y (i + 1)) 0

/-- Proleptic Gregorian ordinal of a date, as CPython `date.toordinal`
(0001-01-01 is ordinal 1); defined for `1 ≤ y`. -/
def dateOrdinal (y m d : Nat) : Nat :=
  365 * (y - 1) + (y - 1) / 4 - (y - 1) / 100 + (y - 1) / 400 + daysBeforeMonth y m + d

def monthOk2 (d1 d2 : Nat) : Bool := (d1 == 1 && decide (d2 ≤ 2)) || (d1 == 0 && decide (1 ≤ d2))

def monthOk1 (d : Nat) : Bool := decide (1 ≤ d)

def dayOk2 (d1 d2 : Nat) : Bool :=
  (d1 == 3 && decide (d2 ≤ 1)) || d1 == 1 || d1 == 2 || (d1 == 0 && decide (1 ≤ d2))

def dayOk1 (d : Nat) : Bool := decide (1 ≤ d)

def hourOk2 (d1 d2 : Nat) : Bool := (d1 == 2 && decide (d2 ≤ 3)) || decide (d1 ≤ 1)

def minuteOk2 (d1 _d2 : Nat) : Bool := decide (d1 ≤ 5)

def secondOk2 (d1 d2 : Nat) : Bool := (d1 == 6 && decide (d2 ≤ 1)) || decide (d1 ≤ 5)

def anyDigit (_d : Nat) : Bool := true

/-- Models `datetime.strptime(s, '%Y-%m-%d %H:%M:%S')` (the grouper's only
parse; the surrounding `try`/`except` makes failure a `none`), followed by
conversion of the resulting datetime to absolute integer microseconds via
the proleptic Gregorian ordinal — CPython datetimes have microsecond
resolution and their subtraction and `timedelta` addition are exact integer
microsecond arithmetic.  The field shapes mirror the CPython strptime
regexes (four-digit year, one-or-two digit other fields, `\s+` for the
blank); the final range checks are the ones the `datetime` constructor
performs. -/
def parseGarminTime (s : String) : Option Int := do
  let (y, r1) ← parseYear4 s.data
  let r2 ← expectChar '-' r1
  let (mo, r3) ← parseField2 monthOk2 monthOk1 r2
  let r4 ← expectChar '-' r3
  let (d, r5) ← parseField2 dayOk2 dayOk1 r4
  let r6 ← expectWs r5
  let (h, r7) ← parseField2 hourOk2 anyDigit r6
  let r8 ← expectChar ':' r7
  let (mi, r9) ← parseField2 minuteOk2 anyDigit r8
  let r10 ← expectChar ':' r9
  let (sec, r11) ← parseField2 secondOk2 anyDigit r10
  if r11.isEmpty && decide (1 ≤ y) && decide (sec ≤ 59) && decide (d ≤ daysInMonth y mo) then
    some ((((dateOrdinal y mo d - 1) * 86400 + h * 3600 + mi * 60 + sec : Nat) : Int) * 1000000)
  else none

/-- The slice of a Garmin activity record the grouper and the insights
pipeline read: `activityId`, `activityName`, `startTimeLocal` (missing key
defaults to `''` at every use site) and `duration` in integer microseconds
(`timedelta(seconds=dur)` truncates the float duration to microsecond
resolution). -/
structure Act where
  activityId : Option Nat
  activityName : Option String
  startTimeLocal : String
  duration : Option Int
deriving DecidableEq

/-- `str(a.get('activityId'))`. -/
def idString (a : Act) : String :=
  match a.activityId with
  | some i => toString i
  | none => "None"

/-- Python `sep.join(parts)`. -/
def joinStr (sep : String) : List String → String
  | [] => ""
  | [x] => x
  | x :: y :: xs => x ++ sep ++ joinStr sep (y :: xs)

/-- The session identity key: `"|".join(str(a.get('activityId')) for a in s)`. -/
def sessionKey (s : List Act) : String := joinStr "|" (s.map idString)

/-- Insert into an already sorted list, before the first element whose start
key is `>=` ours (this makes `sortByStart` the stable sort that Python
`sorted` is). -/
def orderedInsertAct (a : Act) : List Act → List Act
  | [] => [a]
  | b :: l =>
    if strLe a.startTimeLocal b.startTimeLocal then a :: b :: l
    else b :: orderedInsertAct a l

/-- Stable sort by `startTimeLocal`, models
`sorted(activities, key=lambda x: x.get('startTimeLocal', ''))`. -/
def sortByStart : List Act → List Act
  | [] => []
  | a :: l => orderedInsertAct a (sortByStart l)

/-- The loop state of `group_activities_into_sessions`: accumulated sessions,
the session being built, and `last_end_time` (absolute microseconds). -/
structure GState where
  sessions : List (List Act)
  current : List Act
  lastEnd : Option Int
deriving DecidableEq

/-- One iteration of the grouping loop over a sorted activity:
join the current session when both `last_end_time` and the parsed start
exist and the gap is under `hours_gap * 3600` seconds (in microseconds),
otherwise close the current session (if nonempty) and open a new one;
afterwards advance `last_end_time` to start + duration when the start
parsed. -/
def groupStep (hoursGap : Int) (st : GState) (a : Act) : GState :=
  let startDt := parseGarminTime a.startTimeLocal
  let dur : Int := a.duration.getD 0
  let joined : Bool :=
    match st.lastEnd, startDt with
    | some le, some sd => decide (sd - le < hoursGap * 3600 * 1000000)
    | _, _ => false
  let st1 :=
    if joined then { st with current := st.current ++ [a] }
    else { st with
           sessions := st.sessions ++ (if st.current.isEmpty then [] else [st.current]),
           current := [a] }
  match startDt with
  | some sd => { st1 with lastEnd := some (sd + dur) }
  | none => st1

def initGState : GState := ⟨[], [], none⟩

/-- The whole grouping walk over the sorted list. -/
def runGroup (hoursGap : Int) (acts : List Act) : GState :=
  (sortByStart acts).foldl (groupStep hoursGap) initGState

/-- Close the trailing session and return most recent first (the final
`if current_session: sessions.append(current_session)` and `sessions.reverse()`). -/
def finishGroup (st : GState) : List (List Act) :=
  (st.sessions ++ (if st.current.isEmpty then [] else [st.current])).reverse

/-- `group_activities_into_sessions(activities, hours_gap=2)` from `app.py`:
drop `None` entries, sort ascending by start string, walk with the gap rule,
and return sessions most recent first. -/
def group_activities_into_sessions (activities : List (Option Act)) (hoursGap : Int := 2) :
    List (List Act) :=
  if (activities.filterMap id).isEmpty then []
  else finishGroup (runGroup hoursGap (activities.filterMap id))

/-- The slice of an activity-list record `get_heatmap_data` reads:
`activityId`, `startLatitude` (0.0 is a real value, distinct from missing)
and the nested `activityType.typeKey` (missing gives `None` for the response
entry and `'unknown'` for the candidate check). -/
structure HeatAct where
  activityId : Nat
  startLatitude : Option ℚ
  typeKey : Option String
deriving DecidableEq

/-- The polyline cache as an association list; `cacheGet` is
`poly_cache.get(aid)` and `(cacheGet c aid).isSome` is `poly_cache.has(aid)`. -/
def cacheGet (cache : List (Nat × List (ℚ × ℚ))) (aid : Nat) : Option (List (ℚ × ℚ)) :=
  match cache.find? (fun p => p.1 == aid) with
  | some p => some p.2
  | none => none

/-- One entry of the heatmap response `data` list. -/
structure HeatEntry where
  id : Nat
  type : Option String
  poly : List (ℚ × ℚ)
deriving DecidableEq

/-- `'virtual' in type_key.lower() or 'indoor_cycling' in type_key.lower()`. -/
def isVirtualType (typeKey : String) : Bool :=
  containsSub "virtual" (lowerStr typeKey) || containsSub "indoor_cycling" (lowerStr typeKey)

/-- The uncached-candidate condition of the heatmap loop:
`lat is not None or is_virtual`. -/
def heatCandidate (a : HeatAct) : Bool :=
  a.startLatitude.isSome || isVirtualType (a.typeKey.getD "unknown")

/-- The per-activity loop of `get_heatmap_data`: cached activities with a
nonempty polyline go to `result_points`, cached-empty ones are skipped,
uncached candidates go to `missing_ids`, anything else is dropped. -/
def heatmapPartition (cache : List (Nat × List (ℚ × ℚ))) :
    List HeatAct → List HeatEntry × List Nat
  | [] => ([], [])
  | a :: rest =>
    let pm := heatmapPartition cache rest
    match cacheGet cache a.activityId with
    | some poly =>
      if poly.isEmpty then pm else (⟨a.activityId, a.typeKey, poly⟩ :: pm.1, pm.2)
    | none => if heatCandidate a then (pm.1, a.activityId :: pm.2) else pm

/-- The module-level scheduler state: `fetch_generation`,
`active_fetch_range`, `is_fetching` (all read and written under `fetch_lock`). -/
structure FetchState where
  fetchGeneration : Nat
  activeFetchRange : Option String
  isFetching : Bool
deriving DecidableEq

/-- The background-fill decision of `get_heatmap_data` (the body of
`if missing_ids:` under `fetch_lock`): returns the new scheduler state and,
when a worker thread is launched, its id list and captured generation. -/
def scheduleFetch (st : FetchState) (rangeVal : String) (missingIds : List Nat) :
    FetchState × Option (List Nat × Nat) :=
  if missingIds.isEmpty then (st, none)
  else if some rangeVal ≠ st.activeFetchRange then
    (⟨st.fetchGeneration + 1, some rangeVal, true⟩, some (missingIds, st.fetchGeneration + 1))
  else if !st.isFetching then
    ({ st with isFetching := true }, some (missingIds, st.fetchGeneration))
  else (st, none)

/-- The heatmap response dictionary. -/
structure HeatmapResponse where
  count : Nat
  total_activities : Nat
  missing_count : Nat
  data : List HeatEntry
deriving DecidableEq

/-- `get_heatmap_data` after the activity list has been fetched: partition
against the polyline cache, run the scheduler decision, and build the
response `{count, total_activities, missing_count, data}`. -/
def get_heatmap_data (cache : List (Nat × List (ℚ × ℚ))) (acts : List HeatAct)
    (st : FetchState) (rangeVal : String) :
    HeatmapResponse × FetchState × Option (List Nat × Nat) :=
  let pm := heatmapPartition cache acts
  let ss := scheduleFetch st rangeVal pm.2
  (⟨pm.1.length, acts.length, pm.2.length, pm.1⟩, ss.1, ss.2)

/-- One raw point of `geoPolylineDTO.polyline`; the worker keeps a point only
when both `'lat' in p and 'lon' in p`. -/
structure RawPoint where
  lat : Option ℚ
  lon : Option ℚ
deriving DecidableEq

/-- `[[p['lat'], p['lon']] for p in poly if 'lat' in p and 'lon' in p]`. -/
def compactPoints (poly : List RawPoint) : List (ℚ × ℚ) :=
  poly.filterMap (fun p =>
    match p.lat, p.lon with
    | some la, some lo => some (la, lo)
    | _, _ => none)

/-- Fuel-based fixed-stride slice: `strideAux step fuel l` with
`l.length ≤ fuel` is Python `l[::step]` for `1 ≤ step`. -/
def strideAux {α : Type} (step : Nat) : Nat → List α → List α
  | _, [] => []
  | 0, _ :: _ => []
  | fuel + 1, a :: rest => a :: strideAux step fuel (rest.drop (step - 1))

/-- Python `l[::step]` for `1 ≤ step`. -/
def stride {α : Type} (step : Nat) (l : List α) : List α := strideAux step l.length l

/-- The worker's downsampling:
`if len(compact) > 500: step = len(compact) // 500; compact = compact[::step]`. -/
def downsamplePoly (compact : List (ℚ × ℚ)) : List (ℚ × ℚ) :=
  if 500 < compact.length then stride (compact.length / 500) compact else compact

deriving instance DecidableEq for Except

/-- One unit of work of the background worker, with the values of the live
`fetch_generation` counter it observes: `obsFetch` is the read at the top of
`fetch_item`, `obsLoop` the read in the `as_completed` loop before this
item's result is handled, `cached` the `poly_cache.has(aid)` result at
submit-filter time, and `fetch` the outcome of
`client.get_activity_details(aid)` (exception or the raw polyline, an absent
or empty `geoPolylineDTO.polyline` being `[]`).  With `max_workers=1` the
executor runs the items one after another, so a run is faithfully described
by this per-item observation sequence. -/
structure WItem where
  aid : Nat
  cached : Bool
  obsFetch : Nat
  obsLoop : Nat
  fetch : Except Unit (List RawPoint)
deriving DecidableEq

/-- The body of `fetch_item(aid)`: `None` on a stale generation or on an
exception; `(aid, [])` for a missing/empty polyline; otherwise the compact,
downsampled point list. -/
def fetch_item (genId : Nat) (it : WItem) : Option (Nat × List (ℚ × ℚ)) :=
  if it.obsFetch ≠ genId then none
  else
    match it.fetch with
    | .error _ => none
    | .ok poly =>
      if poly.isEmpty then some (it.aid, [])
      else some (it.aid, downsamplePoly (compactPoints poly))

/-- Observable effects of one worker run: the `poly_cache.set` calls in
order, the success counter, the every-20 incremental saves, the
completion-time save, whether `is_fetching` was cleared, and whether the
run returned early on a generation mismatch. -/
structure WorkerState where
  writes : List (Nat × List (ℚ × ℚ))
  count : Nat
  periodicSaves : Nat
  completionSave : Bool
  flagCleared : Bool
  aborted : Bool
deriving DecidableEq

def initWorkerState : WorkerState := ⟨[], 0, 0, false, false, false⟩

/-- The `as_completed` loop of `background_polyline_fetcher`: on each
completed item first re-check the generation and return on mismatch;
otherwise a non-`None` result is written to the cache, the counter bumped,
and every 20th success triggers an incremental save. -/
def workerGo (genId : Nat) : List WItem → WorkerState → WorkerState
  | [], st => st
  | it :: rest, st =>
    if it.obsLoop ≠ genId then { st with aborted := true }
    else
      match fetch_item genId it with
      | none => workerGo genId rest st
      | some pr =>
        let c := st.count + 1
        workerGo genId rest
          { st with writes := st.writes ++ [pr], count := c,
                    periodicSaves := if c % 20 == 0 then st.periodicSaves + 1
                                     else st.periodicSaves }

/-- `to_fetch = [aid for aid in activity_ids if not poly_cache.has(aid)]`. -/
def workerToFetch (items : List WItem) : List WItem := items.filter (fun it => !it.cached)

/-- `background_polyline_fetcher(client, activity_ids, generation_id)`:
filter out already-cached ids, run the loop, then the `finally` clause,
which clears `is_fetching` and saves the cache only when the captured
generation still equals the live counter (`finalObs` is the generation value
the `finally` clause reads). -/
def background_polyline_fetcher (genId : Nat) (items : List WItem) (finalObs : Nat) :
    WorkerState :=
  let body := workerGo genId (workerToFetch items) initWorkerState
  if finalObs == genId then { body with flagCleared := true, completionSave := true } else body

/-- All generation-counter reads of one worker run, in program order. -/
def obsSeq (items : List WItem) (finalObs : Nat) : List Nat :=
  (items.flatMap (fun it => [it.obsFetch, it.obsLoop])) ++ [finalObs]

/-- The session-keyword heuristic of `garmin_request`. -/
def authKeywordList : List String := ["session", "login", "auth", "expired"]

/-- `any(err in str(e).lower() for err in ["session", "login", "auth", "expired"])`. -/
def matchesAuthKw (msg : String) : Bool :=
  authKeywordList.any (fun k => containsSub k (lowerStr msg))

/-- Observable effects of one `garmin_request` call: the final outcome, the
`time.sleep` durations in order, and how often the shared client handle was
discarded (`garmin_client = None`). -/
structure RequestTrace (α : Type) where
  result : Except String α
  sleeps : List Nat
  discards : Nat
deriving DecidableEq

/-- The retry loop of `garmin_request` with `max_retries = 3`: `fuel` is the
number of loop iterations left, `f attempt` the outcome of the wrapped call
on that attempt.  A non-final failure sleeps `(attempt + 1) * 2` seconds and
discards the client handle when the message matches the auth keywords; the
final failure is re-raised. -/
def garminRequestGo {α : Type} (f : Nat → Except String α) :
    Nat → Nat → List Nat → Nat → RequestTrace α
  | _, 0, sleeps, discards => ⟨.error "", sleeps, discards⟩
  | attempt, fuel + 1, sleeps, discards =>
    match f attempt with
    | .ok v => ⟨.ok v, sleeps, discards⟩
    | .error e =>
      if 0 < fuel then
        garminRequestGo f (attempt + 1) fuel (sleeps ++ [(attempt + 1) * 2])
          (if matchesAuthKw e then discards + 1 else discards)
      else ⟨.error e, sleeps, discards⟩

/-- `garmin_request(func, *args, **kwargs)` from `app.py`. -/
def garmin_request {α : Type} (f : Nat → Except String α) : RequestTrace α :=
  garminRequestGo f 0 3 [] 0

/-- The structured narrative the model (or the local placeholder) produces
for one session, as stored in `ai_memory['activity_summaries']`. -/
structure Insight where
  name : String
  highlight : String
  was : String
  worked_on : String
  better_next : String
deriving DecidableEq

/-- `ai_memory['activity_summaries']` as an association list;
`memGet` is the dictionary lookup. -/
def memGet (m : List (String × Insight)) (k : String) : Option Insight :=
  match m.find? (fun p => p.1 == k) with
  | some p => some p.2
  | none => none

/-- Dictionary assignment `m[k] = v` (replace in place or append). -/
def memSet (m : List (String × Insight)) (k : String) (v : Insight) :
    List (String × Insight) :=
  if (m.find? (fun p => p.1 == k)).isSome then
    m.map (fun p => if p.1 == k then (k, v) else p)
  else m ++ [(k, v)]

/-- The local placeholder narrative synthesized for a session the model
response did not cover. -/
def placeholderInsight (s : List Act) : Insight :=
  { name := (s.head?.bind (fun a => a.activityName)).getD "Activity"
  , highlight := "**Solid Consistency!**"
  , was := "This activity is part of your regular training rhythm. Good effort maintaining momentum."
  , worked_on := "Consistency"
  , better_next := "Keep stacking these sessions to build your aerobic base." }

/-- The two memory-update passes after a successful model call: store every
model insight under its (truthy) `session_id`, then fill a placeholder for
every session the model skipped. -/
def mergeMemory (mem : List (String × Insight)) (aiInsights : List (Option String × Insight))
    (sessions : List (List Act)) : List (String × Insight) :=
  let m1 := aiInsights.foldl (fun m p =>
    match p.1 with
    | some sid => if sid ≠ "" then memSet m sid p.2 else m
    | none => m) mem
  sessions.foldl (fun m s =>
    let sid := sessionKey s
    if (memGet m sid).isSome then m else memSet m sid (placeholderInsight s)) m1

/-- The per-session part of the unroll loop: when the session key has an
insight in memory, one copy of it per member activity, tagged with that
member's `activity_id` string. -/
def unrollSession (memory : List (String × Insight)) (s : List Act) :
    List (Insight × String) :=
  match memGet memory (sessionKey s) with
  | none => []
  | some ins => s.map (fun a => (ins, idString a))

/-- The full `final_activity_insights` build of `generate_insights_logic`. -/
def final_activity_insights (memory : List (String × Insight))
    (sessions : List (List Act)) : List (Insight × String) :=
  sessions.flatMap (unrollSession memory)

/-- The parsed JSON the model call returns on success. -/
structure AiData where
  daily_summary : String
  yesterday_summary : String
  suggestions : List String
  activity_insights : List (Option String × Insight)
deriving DecidableEq

/-- The success dictionary `generate_insights_logic` returns. -/
structure InsightsSuccess where
  daily_summary : String
  yesterday_summary : String
  suggestions : String
  activity_insights : List (Insight × String)
  is_ai : Bool
  model_name : String
deriving DecidableEq

/-- The dictionary the `except` block of `generate_insights_logic` returns. -/
structure InsightsFailure where
  error : String
  details : String
  daily_summary : String
  is_ai : Bool
deriving DecidableEq

/-- The two shapes `generate_insights_logic` can return. -/
inductive InsightsResult where
  | ok (r : InsightsSuccess)
  | err (e : InsightsFailure)
deriving DecidableEq

/-- The message cleanup in the `except` block of `generate_insights_logic`. -/
def cleanErrorMsg (msg : String) : String :=
  if containsSub "Quota exceeded" msg || containsSub "429" msg then
    "Gemini API Quota Exceeded. Please wait a minute before retrying."
  else if containsSub "503" msg then
    "Gemini API is temporarily overloaded. Please retry in a few seconds."
  else msg

/-- The full dictionary built by the `except` block. -/
def insightsFailure (e : String) : InsightsFailure :=
  ⟨cleanErrorMsg e, e, "Analysis Interrupted.", false⟩

/-- `generate_insights_logic` from `app.py`, with its two external
collaborators as `Except`-valued inputs: `fetched` stands for the whole
provider data-fetch phase (whose result, for the claims at hand, is the
grouped session list; any exception in that phase lands in the `except`
block), `modelCall` for the Gemini call plus JSON extraction (quota,
overload and malformed-JSON failures all raise into the same `except`
block).  On success the memory is merged, placeholders are filled for
skipped sessions, and the session narratives are unrolled per activity with
`is_ai: True`; on any failure the error dictionary with
`daily_summary: 'Analysis Interrupted.'` and `is_ai: False` is returned and
the memory is left untouched. -/
def generate_insights_logic (fetched : Except String (List (List Act)))
    (modelCall : Except String AiData) (mem : List (String × Insight))
    (modelName : String) : InsightsResult × List (String × Insight) :=
  match fetched with
  | .error e => (.err (insightsFailure e), mem)
  | .ok sessions =>
    match modelCall with
    | .error e => (.err (insightsFailure e), mem)
    | .ok ai =>
      let mem2 := mergeMemory mem ai.activity_insights sessions
      (.ok { daily_summary := ai.daily_summary
           , yesterday_summary := ai.yesterday_summary
           , suggestions := joinStr " " ai.suggestions
           , activity_insights := final_activity_insights mem2 sessions
           , is_ai := true
           , model_name := modelName }, mem2)

/-- The status selection of the `/api/ai_insights` route `get_ai_insights`:
a result containing an `error` key is returned with HTTP 503, any other
(always truthy) result with HTTP 200. -/
def aiInsightsStatus : InsightsResult → Nat
  | .err _ => 503
  | .ok _ => 200

/-- Attempt schedule for the retry facade: outcome `a` on attempt 0, `b` on
attempt 1, `c` on every later attempt. -/
def mk3 {α : Type} (a b c : Except String α) : Nat → Except String α :=
  fun n => if n = 0 then a else if n = 1 then b else c

/-- Concrete inputs for the grouper scenarios: a parseable 10:00 activity. -/
def cActX : Act := ⟨some 1, none, "2024-01-01 10:00:00", some 0⟩

/-- An activity whose timestamp fails to parse (trailing garbage) but sorts
between 10:00 and 10:30. -/
def cActU : Act := ⟨some 2, none, "2024-01-01 10:15:00 oops", some 0⟩

/-- A parseable 10:30 activity. -/
def cActB : Act := ⟨some 3, none, "2024-01-01 10:30:00", some 0⟩

/-- Session-growth scenario: two activities forming one session
(10:00 and 10:30, 1800 s each, so the session ends at 11:00). -/
def gAct1 : Act := ⟨some 11, none, "2024-01-01 10:00:00", some 1800000000⟩

def gAct2 : Act := ⟨some 12, none, "2024-01-01 10:30:00", some 1800000000⟩

def gActs : List Act := [gAct1, gAct2]

/-- An 11:30 activity, 1800 s after the session end: within the 2 h gap. -/
def gActIn : Act := ⟨some 13, none, "2024-01-01 11:30:00", some 0⟩

/-- A 14:00 activity, 10800 s after the session end: beyond the 2 h gap. -/
def gActOut : Act := ⟨some 14, none, "2024-01-01 14:00:00", some 0⟩

/-- The end-to-end heatmap scenario cache from the spec:
`{101: [[40.1, -74.1], [40.2, -74.2]]}`. -/
def demoCache : List (Nat × List (ℚ × ℚ)) :=
  [(101, [(mkRat 401 10, mkRat (-741) 10), (mkRat 402 10, mkRat (-742) 10)])]

/-- The scenario activity list:
`[{id: 101, startLatitude: 40.1}, {id: 102, startLatitude: 0.0, type: "indoor_cycling"}]`. -/
def demoActs : List HeatAct :=
  [⟨101, some (mkRat 401 10), none⟩, ⟨102, some 0, some "indoor_cycling"⟩]

/-- A raw polyline of 501 points, all of which carry lat and lon. -/
def cRaw501 : List RawPoint := List.replicate 501 ⟨some 0, some 0⟩

/-- A work item whose detail fetch yields the 501-point polyline. -/
def cItem501 : WItem := ⟨7, false, 1, 1, .ok cRaw501⟩

/-- A scheduler state with an active range differing from `last_month`. -/
def cFetchState : FetchState := ⟨5, some "this_year", false⟩

/-- Worker-cancellation scenario: the first item is handled under the
worker's generation 1, then the live counter moves to 2. -/
def wItemA : WItem := ⟨7, false, 1, 1, .ok [⟨some 1, some 2⟩]⟩

def wItemB : WItem := ⟨8, false, 2, 2, .ok [⟨some 3, some 4⟩]⟩

def wDemoItems : List WItem := [wItemA, wItemB]

/-- A sample session narrative. -/
def demoInsight : Insight :=
  ⟨"Morning Ride", "**Strong tempo!**", "steady aerobic work", "Endurance", "add sprints"⟩

/-- A three-activity session (ids 10, 11, 12). -/
def demoSession : List Act :=
  [⟨some 10, none, "2024-01-01 08:00:00", some 600000000⟩,
   ⟨some 11, none, "2024-01-01 08:20:00", some 600000000⟩,
   ⟨some 12, none, "2024-01-01 08:40:00", some 600000000⟩]

/-- A memory holding the narrative of `demoSession` under its key. -/
def demoMem : List (String × Insight) := [("10|11|12", demoInsight)]

theorem strideAux_length {α : Type} (step : Nat) (hstep : 1 ≤ step) :
    ∀ (fuel : Nat) (l : List α), l.length ≤ fuel →
      (strideAux step fuel l).length = (l.length + step - 1) / step := by
  intro fuel
  induction fuel with
  | zero =>
    intro l hl
    cases l with
    | nil =>
      simp only [strideAux, List.length_nil, List.length_nil, Nat.zero_add]
      exact (Nat.div_eq_of_lt (by omega)).symm
    | cons a t => simp at hl
  | succ n ih =>
    intro l hl
    cases l with
    | nil =>
      simp only [strideAux, List.length_nil, Nat.zero_add]
      exact (Nat.div_eq_of_lt (by omega)).symm
    | cons a rest =>
      simp only [strideAux, List.length_cons]
      rw [ih (rest.drop (step - 1))
        (by simp only [List.length_drop]; simp only [List.length_cons] at hl; omega)]
      rw [List.length_drop]
      rcases le_or_lt (step - 1) rest.length with h | h
      · have h1 : rest.length - (step - 1) + step - 1 = rest.length := by omega
        have h2 : rest.length + 1 + step - 1 = rest.length + step := by omega
        rw [h1, h2, Nat.add_div_right _ (by omega)]
      · have h1 : rest.length - (step - 1) + step - 1 = step - 1 := by omega
        have h2 : rest.length + 1 + step - 1 = rest.length + step := by omega
        rw [h1, h2, Nat.add_div_right _ (by omega)]
        rw [Nat.div_eq_of_lt (by omega), Nat.div_eq_of_lt (by omega)]

theorem stride_length {α : Type} (step : Nat) (hstep : 1 ≤ step) (l : List α) :
    (stride step l).length = (l.length + step - 1) / step :=
  strideAux_length step hstep l.length l le_rfl

theorem downsamplePoly_length (compact : List (ℚ × ℚ)) :
    (downsamplePoly compact).length ≤ 999 := by
  by_cases h : 500 < compact.length
  · have hk : 1 ≤ compact.length / 500 := by omega
    rw [downsamplePoly, if_pos h, stride_length _ hk]
    have hle1 : compact.length + compact.length / 500 - 1 ≤
        498 + compact.length / 500 * 501 := by omega
    have hself := Nat.div_le_self 498 (compact.length / 500)
    calc (compact.length + compact.length / 500 - 1) / (compact.length / 500)
        ≤ (498 + compact.length / 500 * 501) / (compact.length / 500) :=
          Nat.div_le_div_right hle1
      _ = 498 / (compact.length / 500) + 501 := Nat.add_mul_div_left 498 501 (by omega)
      _ ≤ 999 := by omega
  · rw [downsamplePoly, if_neg h]; omega

theorem joinStr_append_last (sep y : String) (xs : List String) (h : xs ≠ []) :
    joinStr sep (xs ++ [y]) = joinStr sep xs ++ sep ++ y := by
  induction xs with
  | nil => simp at h
  | cons x t ih =>
    cases t with
    | nil => rfl
    | cons z zs =>
      have ih2 := ih (by simp)
      simp only [List.cons_append, List.append_eq, joinStr] at ih2 ⊢
      rw [ih2]
      simp [String.append_assoc]

theorem sessionKey_append_last (cur : List Act) (a : Act) (h : cur ≠ []) :
    sessionKey (cur ++ [a]) = sessionKey cur ++ "|" ++ idString a := by
  unfold sessionKey
  rw [List.map_append]
  exact joinStr_append_last "|" (idString a) (cur.map idString) (by simpa using h)

theorem sessionKey_append_ne (cur : List Act) (a : Act) (h : cur ≠ []) :
    sessionKey (cur ++ [a]) ≠ sessionKey cur := by
  rw [sessionKey_append_last cur a h]
  intro he
  have hlen := congrArg String.length he
  rw [String.length_append, String.length_append] at hlen
  have hbar : ("|" : String).length = 1 := rfl
  omega

theorem orderedInsertAct_append (x a : Act) (ys : List Act)
    (h : strLe x.startTimeLocal a.startTimeLocal = true) :
    orderedInsertAct x (ys ++ [a]) = orderedInsertAct x ys ++ [a] := by
  induction ys with
  | nil => simp [orderedInsertAct, h]
  | cons b t ih =>
    simp only [List.cons_append, orderedInsertAct]
    by_cases hb : strLe x.startTimeLocal b.startTimeLocal <;> simp [hb, ih]

theorem sortByStart_append_last (l : List Act) (a : Act)
    (h : ∀ x ∈ l, strLe x.startTimeLocal a.startTimeLocal = true) :
    sortByStart (l ++ [a]) = sortByStart l ++ [a] := by
  induction l with
  | nil => rfl
  | cons x t ih =>
    simp only [List.cons_append, List.append_eq, sortByStart]
    rw [ih (fun y hy => h y (by simp [hy]))]
    exact orderedInsertAct_append x a (sortByStart t) (h x (by simp))

theorem runGroup_append (g : Int) (l : List Act) (a : Act)
    (h : ∀ x ∈ l, strLe x.startTimeLocal a.startTimeLocal = true) :
    runGroup g (l ++ [a]) = groupStep g (runGroup g l) a := by
  unfold runGroup
  rw [sortByStart_append_last l a h, List.foldl_append]
  rfl

theorem group_map_some (g : Int) (l : List Act) (hl : l ≠ []) :
    group_activities_into_sessions (l.map some) g = finishGroup (runGroup g l) := by
  have h1 : (l.map some).filterMap id = l := by simp
  unfold group_activities_into_sessions
  rw [h1, if_neg (by simpa [List.isEmpty_iff] using hl)]

theorem groupStep_join (g : Int) (st : GState) (a : Act) (le sd : Int)
    (hle : st.lastEnd = some le) (hsd : parseGarminTime a.startTimeLocal = some sd)
    (hlt : sd - le < g * 3600 * 1000000) :
    groupStep g st a = ⟨st.sessions, st.current ++ [a], some (sd + a.duration.getD 0)⟩ := by
  simp [groupStep, hle, hsd, hlt]

theorem groupStep_new (g : Int) (st : GState) (a : Act) (le sd : Int)
    (hle : st.lastEnd = some le) (hsd : parseGarminTime a.startTimeLocal = some sd)
    (hge : ¬ sd - le < g * 3600 * 1000000) :
    groupStep g st a =
      ⟨st.sessions ++ (if st.current.isEmpty then [] else [st.current]), [a],
        some (sd + a.duration.getD 0)⟩ := by
  simp [groupStep, hle, hsd, hge]

theorem groupStep_noLast (g : Int) (st : GState) (a : Act) (sd : Int)
    (hle : st.lastEnd = none) (hsd : parseGarminTime a.startTimeLocal = some sd) :
    groupStep g st a =
      ⟨st.sessions ++ (if st.current.isEmpty then [] else [st.current]), [a],
        some (sd + a.duration.getD 0)⟩ := by
  simp [groupStep, hle, hsd]

theorem groupStep_unparseable (g : Int) (st : GState) (a : Act)
    (hnp : parseGarminTime a.startTimeLocal = none) :
    groupStep g st a =
      ⟨st.sessions ++ (if st.current.isEmpty then [] else [st.current]), [a], st.lastEnd⟩ := by
  cases hle : st.lastEnd <;> simp [groupStep, hnp, hle]

theorem flatten_closeCurrent (cur : List Act) (ss : List (List Act)) :
    (ss ++ (if cur.isEmpty then [] else [cur])).flatten = ss.flatten ++ cur := by
  by_cases hc : cur = [] <;> simp [hc]

theorem groupStep_flatten (g : Int) (st : GState) (a : Act) :
    (groupStep g st a).sessions.flatten ++ (groupStep g st a).current =
      st.sessions.flatten ++ st.current ++ [a] := by
  cases hpd : parseGarminTime a.startTimeLocal with
  | none =>
    rw [groupStep_unparseable g st a hpd]
    simp only [flatten_closeCurrent]
  | some sd =>
    cases hle : st.lastEnd with
    | none =>
      rw [groupStep_noLast g st a sd hle hpd]
      simp only [flatten_closeCurrent]
    | some le =>
      by_cases hlt : sd - le < g * 3600 * 1000000
      · rw [groupStep_join g st a le sd hle hpd hlt]
        simp [List.append_assoc]
      · rw [groupStep_new g st a le sd hle hpd hlt]
        simp only [flatten_closeCurrent]

theorem groupFold_flatten (g : Int) (l : List Act) (st : GState) :
    ((l.foldl (groupStep g) st).sessions.flatten ++ (l.foldl (groupStep g) st).current) =
      (st.sessions.flatten ++ st.current) ++ l := by
  induction l generalizing st with
  | nil => simp
  | cons a t ih =>
    rw [List.foldl_cons, ih, groupStep_flatten]
    simp

theorem runGroup_flatten (g : Int) (l : List Act) :
    (runGroup g l).sessions.flatten ++ (runGroup g l).current = sortByStart l := by
  have h := groupFold_flatten g (sortByStart l) initGState
  simpa [runGroup, initGState] using h

theorem mem_orderedInsertAct (x a : Act) (l : List Act) :
    x ∈ orderedInsertAct a l ↔ x = a ∨ x ∈ l := by
  induction l with
  | nil => simp [orderedInsertAct]
  | cons b t ih =>
    by_cases h : strLe a.startTimeLocal b.startTimeLocal
    · simp [orderedInsertAct, h, ih]
    · simp [orderedInsertAct, h, ih]
      tauto

theorem mem_sortByStart (x : Act) (l : List Act) : x ∈ sortByStart l ↔ x ∈ l := by
  induction l with
  | nil => simp [sortByStart]
  | cons a t ih => simp [sortByStart, mem_orderedInsertAct, ih]

theorem mem_group_flatten (g : Int) (activities : List (Option Act)) (x : Act) :
    x ∈ (group_activities_into_sessions activities g).flatten ↔
      x ∈ activities.filterMap id := by
  unfold group_activities_into_sessions
  by_cases he : (activities.filterMap id).isEmpty
  · rw [if_pos he]
    simp [List.isEmpty_iff.mp he]
  · rw [if_neg (by simpa using he)]
    have hrev : ∀ L : List (List Act), x ∈ L.reverse.flatten ↔ x ∈ L.flatten := by
      intro L; simp [List.mem_flatten]
    rw [finishGroup, hrev, flatten_closeCurrent, runGroup_flatten, mem_sortByStart]

theorem workerGo_flag (genId : Nat) (l : List WItem) (st : WorkerState) :
    (workerGo genId l st).flagCleared = st.flagCleared
    ∧ (workerGo genId l st).completionSave = st.completionSave := by
  induction l generalizing st with
  | nil => exact ⟨rfl, rfl⟩
  | cons it rest ih =>
    by_cases h : it.obsLoop ≠ genId
    · simp [workerGo, h]
    · cases hfi : fetch_item genId it with
      | none => simpa [workerGo, h, hfi] using ih st
      | some pr => simpa [workerGo, h, hfi] using ih _

theorem workerGo_writes_takeWhile (genId : Nat) (l : List WItem) (st : WorkerState) :
    (workerGo genId l st).writes =
      (workerGo genId (l.takeWhile (fun it => it.obsLoop == genId)) st).writes := by
  induction l generalizing st with
  | nil => rfl
  | cons it rest ih =>
    by_cases h : it.obsLoop = genId
    · have hb : (it.obsLoop == genId) = true := by simp [h]
      cases hfi : fetch_item genId it with
      | none => simpa [workerGo, List.takeWhile_cons, h, hb, hfi] using ih st
      | some pr => simpa [workerGo, List.takeWhile_cons, h, hb, hfi] using ih _
    · have hb : (it.obsLoop == genId) = false := by simp [h]
      simp [workerGo, List.takeWhile_cons, h, hb]

theorem heatmapPartition_missing (cache : List (Nat × List (ℚ × ℚ))) (acts : List HeatAct) :
    (heatmapPartition cache acts).2 =
      (acts.filter (fun a => !(cacheGet cache a.activityId).isSome && heatCandidate a)).map
        (fun a => a.activityId) := by
  induction acts with
  | nil => rfl
  | cons a rest ih =>
    cases h : cacheGet cache a.activityId with
    | some poly =>
      by_cases hp : poly.isEmpty <;> simp [heatmapPartition, List.filter_cons, h, hp, ih]
    | none =>
      by_cases hc : heatCandidate a <;> simp [heatmapPartition, List.filter_cons, h, hc, ih]

theorem heatmapPartition_counts (cache : List (Nat × List (ℚ × ℚ))) (acts : List HeatAct) :
    (heatmapPartition cache acts).1.length + (heatmapPartition cache acts).2.length
      + acts.countP (fun a => decide (cacheGet cache a.activityId = some []))
      + acts.countP (fun a => decide (cacheGet cache a.activityId = none) && !heatCandidate a)
      = acts.length := by
  induction acts with
  | nil => rfl
  | cons a rest ih =>
    cases h : cacheGet cache a.activityId with
    | some poly =>
      by_cases hp : poly.isEmpty
      · have hpoly : poly = [] := List.isEmpty_iff.mp hp
        subst hpoly
        simp [heatmapPartition, h, List.countP_cons]
        omega
      · have hne : poly ≠ [] := by simpa [List.isEmpty_iff] using hp
        simp [heatmapPartition, h, hp, hne, List.countP_cons]
        omega
    | none =>
      by_cases hc : heatCandidate a <;>
        · simp [heatmapPartition, h, hc, List.countP_cons]
          omega

/-- Claim C1, counterexample: with the provider data fetched successfully and
the model call failing with a quota error, the `/api/ai_insights` endpoint
returns HTTP 503 — a hard error, not a success-equivalent response — so the
claim that a model-call failure alone still yields a success-equivalent
response is false on the code. -/
theorem C1_counterexample :
    aiInsightsStatus (generate_insights_logic (Except.ok [[cActX]])
      (Except.error "429 RESOURCE_EXHAUSTED") [] "gemma-3-27b-it").1 = 503
    ∧ (503 : Nat) ≠ 200 := by
  exact ⟨rfl, by decide⟩

/-- Claim C1, amended: when the model call fails, `generate_insights_logic`
returns the error dictionary (cleaned error message, `daily_summary`
"Analysis Interrupted.", `is_ai: false`, no per-session narratives) with the
memory untouched, and `get_ai_insights` returns it with HTTP 503 — the same
hard-error path a total data-fetch failure takes; there is no deterministic
per-session fallback narrative. -/
theorem C1_theorem (sessions : List (List Act)) (mem : List (String × Insight))
    (modelName e : String) :
    generate_insights_logic (Except.ok sessions) (Except.error e) mem modelName =
      (InsightsResult.err (insightsFailure e), mem)
    ∧ aiInsightsStatus
        (generate_insights_logic (Except.ok sessions) (Except.error e) mem modelName).1 = 503
    ∧ (insightsFailure e).is_ai = false
    ∧ (insightsFailure e).daily_summary = "Analysis Interrupted."
    ∧ ∀ d : String,
        aiInsightsStatus
          (generate_insights_logic (Except.error d) (Except.error e) mem modelName).1 = 503 := by
  exact ⟨rfl, rfl, rfl, rfl, fun _ => rfl⟩

/-- Claim C2: once the live generation counter (whose successive observed
values only ever grow) has been incremented past the worker's captured
generation and the worker observes the mismatch in its completion loop, the
run writes exactly the cache entries of the prefix before the first
mismatch observation, performs no completion save, and does not clear the
`is_fetching` flag; in general only a run whose final generation read equals
its captured generation clears the flag. -/
theorem C2_theorem (genId finalObs : Nat) (items : List WItem)
    (hmono : (obsSeq (workerToFetch items) finalObs).Pairwise (fun a b => a ≤ b))
    (hmis : ∃ it ∈ workerToFetch items, genId < it.obsLoop) :
    (background_polyline_fetcher genId items finalObs).flagCleared = false
    ∧ (background_polyline_fetcher genId items finalObs).completionSave = false
    ∧ (background_polyline_fetcher genId items finalObs).writes =
        (workerGo genId ((workerToFetch items).takeWhile (fun it => it.obsLoop == genId))
          initWorkerState).writes
    ∧ ∀ f, (background_polyline_fetcher genId items f).flagCleared = true → f = genId := by
  obtain ⟨it, hmem, hlt⟩ := hmis
  have hobs : it.obsLoop ∈ (workerToFetch items).flatMap (fun w => [w.obsFetch, w.obsLoop]) :=
    List.mem_flatMap.mpr ⟨it, hmem, by simp⟩
  unfold obsSeq at hmono
  have hle : it.obsLoop ≤ finalObs :=
    (List.pairwise_append.mp hmono).2.2 _ hobs finalObs (by simp)
  have hfinb : (finalObs == genId) = false := by simp; omega
  refine ⟨?_, ?_, ?_, ?_⟩
  · simp [background_polyline_fetcher, hfinb, (workerGo_flag genId _ _).1, initWorkerState]
  · simp [background_polyline_fetcher, hfinb, (workerGo_flag genId _ _).2, initWorkerState]
  · have hw := workerGo_writes_takeWhile genId (workerToFetch items) initWorkerState
    by_cases hf : (finalObs == genId) = true <;>
      simpa [background_polyline_fetcher, hf] using hw
  · intro f hflag
    by_cases hf : (f == genId) = true
    · simpa using hf
    · exfalso
      simp [background_polyline_fetcher, hf, (workerGo_flag genId _ _).1,
        initWorkerState] at hflag

set_option maxRecDepth 4000 in
/-- Claim C2, witness: a concrete run under generation 1 whose second item
observes the counter at 2 neither clears the flag nor saves, and its writes
are those of the prefix before the mismatch. -/
theorem C2_witness :
    (background_polyline_fetcher 1 wDemoItems 2).flagCleared = false
    ∧ (background_polyline_fetcher 1 wDemoItems 2).completionSave = false
    ∧ (background_polyline_fetcher 1 wDemoItems 2).writes =
        (workerGo 1 ((workerToFetch wDemoItems).takeWhile (fun it => it.obsLoop == 1))
          initWorkerState).writes := by
  have h := C2_theorem 1 2 wDemoItems (by decide) (by decide)
  exact ⟨h.1, h.2.1, h.2.2.1⟩

set_option maxRecDepth 20000 in
/-- Claim C3, counterexample: a 501-point raw polyline is stored by
`fetch_item` with all 501 points (stride `501 // 500 = 1` keeps everything),
so the cached compact list is not "at most 500 points". -/
theorem C3_counterexample :
    fetch_item 1 cItem501 = some (7, downsamplePoly (compactPoints cRaw501))
    ∧ (downsamplePoly (compactPoints cRaw501)).length = 501
    ∧ ¬ (downsamplePoly (compactPoints cRaw501)).length ≤ 500 := by
  refine ⟨by decide, by decide, by decide⟩

/-- Claim C3, amended: every point list `fetch_item` produces for the cache
has at most 999 points (at most 500 is guaranteed only when the stride
`len // 500` is large enough), and whenever the compact list exceeds 500
points the stored list is the fixed-stride subsample with stride
`len // 500`. -/
theorem C3_theorem (genId : Nat) (it : WItem) (aid : Nat) (pts : List (ℚ × ℚ))
    (h : fetch_item genId it = some (aid, pts)) :
    pts.length ≤ 999
    ∧ ∀ cp : List (ℚ × ℚ), 500 < cp.length →
        downsamplePoly cp = stride (cp.length / 500) cp := by
  refine ⟨?_, fun cp hcp => by rw [downsamplePoly, if_pos hcp]⟩
  unfold fetch_item at h
  split at h
  · exact absurd h (by simp)
  · split at h
    · exact absurd h (by simp)
    · split at h
      · simp only [Option.some.injEq, Prod.mk.injEq] at h
        rw [← h.2]; simp
      · simp only [Option.some.injEq, Prod.mk.injEq] at h
        rw [← h.2]; exact downsamplePoly_length _

/-- Claim C3, witness: a small successful fetch stays within the bound. -/
theorem C3_witness :
    fetch_item 1 wItemA = some (7, [((1 : ℚ), (2 : ℚ))])
    ∧ ([((1 : ℚ), (2 : ℚ))]).length ≤ 999 := by
  exact ⟨by decide, (C3_theorem 1 wItemA 7 [(1, 2)] (by decide)).1⟩

/-- Claim C4, counterexample: a heatmap request whose range differs from the
active range but which has no uncached candidates leaves the generation
counter (and the whole scheduler state) untouched and spawns no worker, so
the counter is not incremented on every range change. -/
theorem C4_counterexample :
    some "last_month" ≠ cFetchState.activeFetchRange
    ∧ (scheduleFetch cFetchState "last_month" []).1.fetchGeneration =
        cFetchState.fetchGeneration
    ∧ (scheduleFetch cFetchState "last_month" []).2 = none := by
  exact ⟨by decide, rfl, rfl⟩

/-- Claim C4, amended: the generation counter is incremented exactly when a
heatmap request that reaches the scheduler has at least one missing
candidate and a range differing from the active one; on that transition the
counter, active range and running flag are updated together and the new
worker is launched under the new generation. -/
theorem C4_theorem (st : FetchState) (rangeVal : String) (missingIds : List Nat)
    (hmiss : missingIds ≠ [])
    (hrange : some rangeVal ≠ st.activeFetchRange) :
    scheduleFetch st rangeVal missingIds =
      (⟨st.fetchGeneration + 1, some rangeVal, true⟩,
        some (missingIds, st.fetchGeneration + 1)) := by
  rw [scheduleFetch, if_neg (by simpa [List.isEmpty_iff] using hmiss), if_pos hrange]

/-- Claim C4, witness: the amended transition at a concrete state. -/
theorem C4_witness :
    scheduleFetch cFetchState "last_month" [102] =
      (⟨6, some "last_month", true⟩, some ([102], 6)) := by
  have h := C4_theorem cFetchState "last_month" [102] (by decide) (by decide)
  simpa [cFetchState] using h

/-- Claim C5: on the spec's end-to-end scenario (cache `{101: [...]}`,
activities 101 with latitude and uncached 102 with latitude 0.0 and type
`indoor_cycling`) the synchronous response has exactly the one cached entry,
`missing_count` 1, and a worker is spawned for `[102]` under generation 1;
in general the candidate list is exactly the uncached activities whose
start latitude is present (0.0 included) or whose type tag matches the
virtual/indoor substrings. -/
theorem C5_theorem :
    (get_heatmap_data demoCache demoActs ⟨0, none, false⟩ "this_year").1.count = 1
    ∧ (get_heatmap_data demoCache demoActs ⟨0, none, false⟩ "this_year").1.missing_count = 1
    ∧ (get_heatmap_data demoCache demoActs ⟨0, none, false⟩ "this_year").1.data =
        [⟨101, none, [(mkRat 401 10, mkRat (-741) 10), (mkRat 402 10, mkRat (-742) 10)]⟩]
    ∧ (get_heatmap_data demoCache demoActs ⟨0, none, false⟩ "this_year").2.2 =
        some ([102], 1)
    ∧ heatCandidate ⟨102, some 0, some "indoor_cycling"⟩ = true
    ∧ ∀ (cache : List (Nat × List (ℚ × ℚ))) (acts : List HeatAct),
        (heatmapPartition cache acts).2 =
          (acts.filter (fun a => !(cacheGet cache a.activityId).isSome && heatCandidate a)).map
            (fun a => a.activityId) := by
  refine ⟨by decide, by decide, by decide, by decide, by decide, heatmapPartition_missing⟩

/-- Claim C6: grouping is a pure function of the activity list, so two runs
on the same list give identical key lists; appending an activity that sorts
last and falls within the gap of the trailing session replaces only that
session's key with a strictly different one; appending one beyond the gap
prepends a fresh singleton session key and leaves every prior key
unchanged. -/
theorem C6_theorem (g : Int) (l : List Act) (a : Act) (le sd : Int)
    (hsorted : ∀ x ∈ l, strLe x.startTimeLocal a.startTimeLocal = true)
    (hle : (runGroup g l).lastEnd = some le)
    (hsd : parseGarminTime a.startTimeLocal = some sd)
    (hcur : (runGroup g l).current ≠ []) :
    (∀ m : List (Option Act),
        group_activities_into_sessions m g = group_activities_into_sessions m g)
    ∧ (sd - le < g * 3600 * 1000000 →
        (group_activities_into_sessions ((l ++ [a]).map some) g).map sessionKey =
          sessionKey ((runGroup g l).current ++ [a]) ::
            ((runGroup g l).sessions.reverse.map sessionKey)
        ∧ (group_activities_into_sessions (l.map some) g).map sessionKey =
            sessionKey (runGroup g l).current ::
              ((runGroup g l).sessions.reverse.map sessionKey)
        ∧ sessionKey ((runGroup g l).current ++ [a]) ≠ sessionKey (runGroup g l).current)
    ∧ (¬ sd - le < g * 3600 * 1000000 →
        (group_activities_into_sessions ((l ++ [a]).map some) g).map sessionKey =
          sessionKey [a] ::
            (group_activities_into_sessions (l.map some) g).map sessionKey) := by
  have hlne : l ≠ [] := by
    intro hnil
    rw [hnil] at hcur
    simp [runGroup, sortByStart, initGState] at hcur
  have hgl := group_map_some g l hlne
  have hgla := group_map_some g (l ++ [a]) (by simp)
  have hra := runGroup_append g l a hsorted
  refine ⟨fun _ => rfl, fun hlt => ?_, fun hge => ?_⟩
  · rw [hgla, hra, groupStep_join g _ a le sd hle hsd hlt]
    refine ⟨?_, ?_, sessionKey_append_ne _ a hcur⟩
    · rw [finishGroup]
      simp [hcur]
    · rw [hgl, finishGroup]
      simp [hcur]
  · rw [hgla, hra, groupStep_new g _ a le sd hle hsd hge, hgl]
    rw [finishGroup, finishGroup]
    simp [hcur]

/-- Claim C6, witness: on the concrete two-activity session ending at 11:00,
an 11:30 activity changes the trailing session's key, and a 14:00 activity
opens a new singleton session in front while keeping the prior keys. -/
theorem C6_witness :
    sessionKey ((runGroup 2 gActs).current ++ [gActIn]) ≠
      sessionKey (runGroup 2 gActs).current
    ∧ (group_activities_into_sessions ((gActs ++ [gActOut]).map some) 2).map sessionKey =
        sessionKey [gActOut] ::
          (group_activities_into_sessions (gActs.map some) 2).map sessionKey := by
  constructor
  · exact ((C6_theorem 2 gActs gActIn 63839703600000000 63839705400000000 (by decide)
      (by decide) (by decide) (by decide)).2.1 (by decide)).2.2
  · exact (C6_theorem 2 gActs gActOut 63839703600000000 63839714400000000 (by decide)
      (by decide) (by decide) (by decide)).2.2 (by decide)

/-- Claim C7, counterexample: the unparseable-timestamp activity (id 2) is
not treated as its own singleton session — the later 10:30 activity (id 3)
joins its session, because the stale `last_end_time` of the 10:00 activity
is still within the gap — so the claim's "treated as its own singleton
session" is false on the code. -/
theorem C7_counterexample :
    group_activities_into_sessions [some cActX, some cActU, some cActB] 2 =
      [[cActU, cActB], [cActX]]
    ∧ cActU ∈ [cActU, cActB]
    ∧ [cActU, cActB] ≠ [cActU] := by
  refine ⟨by decide, by decide, by decide⟩

/-- Claim C7, amended: an activity lacking a parseable start time never
throws (the grouper is total), always closes the current session and opens a
new one containing itself (it never joins an earlier session) while leaving
`last_end_time` untouched, and is never dropped (the grouped output contains
exactly the non-`None` input activities); but it is not necessarily a
singleton session — a later activity within the gap of the last parseable
end time joins it — and its position follows the sort order of its raw
timestamp string. -/
theorem C7_theorem :
    (∀ (g : Int) (st : GState) (a : Act), parseGarminTime a.startTimeLocal = none →
        groupStep g st a =
          ⟨st.sessions ++ (if st.current.isEmpty then [] else [st.current]), [a],
            st.lastEnd⟩)
    ∧ ∀ (g : Int) (activities : List (Option Act)) (x : Act),
        x ∈ (group_activities_into_sessions activities g).flatten ↔
          x ∈ activities.filterMap id := by
  exact ⟨fun g st a h => groupStep_unparseable g st a h,
    fun g activities x => mem_group_flatten g activities x⟩

/-- Claim C7, witness: the unparseable activity at a concrete state opens a
fresh session without touching `last_end_time`, and is kept in the output. -/
theorem C7_witness :
    groupStep 2 initGState cActU =
      ⟨initGState.sessions ++
          (if initGState.current.isEmpty then [] else [initGState.current]),
        [cActU], initGState.lastEnd⟩
    ∧ (cActU ∈ (group_activities_into_sessions [some cActU] 2).flatten ↔
        cActU ∈ ([some cActU].filterMap id)) := by
  exact ⟨C7_theorem.1 2 initGState cActU (by decide),
    C7_theorem.2 2 [some cActU] cActU⟩

/-- Claim C8: the facade retries up to 3 total attempts with backoff 2 s then
4 s, re-raising the last exception with one handle discard per failed
non-final attempt whose message matches the auth keywords; in the
session-expired-twice scenario it returns the third attempt's success with
sleeps `[2, 4]` and exactly 2 discards. -/
theorem C8_theorem (α : Type) (v : α) (e0 e1 e2 : String) :
    garmin_request
        (mk3 (Except.error e0) (Except.error e1) (Except.error e2) :
          Nat → Except String α) =
      ⟨Except.error e2, [2, 4],
        (if matchesAuthKw e0 then 1 else 0) + (if matchesAuthKw e1 then 1 else 0)⟩
    ∧ garmin_request
        (mk3 (Except.error "session expired") (Except.error "session expired")
          (Except.ok v)) = ⟨Except.ok v, [2, 4], 2⟩ := by
  constructor
  · by_cases hk0 : matchesAuthKw e0 <;> by_cases hk1 : matchesAuthKw e1 <;>
      simp [garmin_request, garminRequestGo, mk3, hk0, hk1]
  · have hs : matchesAuthKw "session expired" = true := by decide
    simp [garmin_request, garminRequestGo, mk3, hs]

/-- Claim C9: whenever a session's identity key has a narrative in the
memory after the merge step, the unrolled output block for that session is
exactly one entry per member activity, in member order, each carrying the
same narrative and that member's `activity_id` string; the endpoint output
is the concatenation of these per-session blocks. -/
theorem C9_theorem (memory : List (String × Insight)) (s : List Act) (ins : Insight)
    (h : memGet memory (sessionKey s) = some ins) :
    unrollSession memory s = s.map (fun a => (ins, idString a))
    ∧ (unrollSession memory s).length = s.length
    ∧ (unrollSession memory s).map Prod.snd = s.map idString
    ∧ ∀ sessions : List (List Act),
        final_activity_insights memory sessions = sessions.flatMap (unrollSession memory) := by
  refine ⟨?_, ?_, ?_, fun _ => rfl⟩
  · rw [unrollSession, h]
  · rw [unrollSession, h]; simp
  · rw [unrollSession, h]; simp

/-- Claim C9, witness: a three-activity session with a memoized narrative
unrolls to exactly three entries with distinct activity ids 10, 11, 12 and
identical narrative content. -/
theorem C9_witness :
    unrollSession demoMem demoSession =
      [(demoInsight, "10"), (demoInsight, "11"), (demoInsight, "12")] := by
  have h := (C9_theorem demoMem demoSession demoInsight (by decide)).1
  rw [h]; decide

/-- Claim C10: in every heatmap response `count` equals the length of
`data`; the activities split exactly into counted entries, missing
candidates, cached-empty activities, and uncached non-candidates, so
`count + missing_count` never exceeds `total_activities`. -/
theorem C10_theorem (cache : List (Nat × List (ℚ × ℚ))) (acts : List HeatAct)
    (st : FetchState) (rangeVal : String) :
    (get_heatmap_data cache acts st rangeVal).1.count =
        (get_heatmap_data cache acts st rangeVal).1.data.length
    ∧ (get_heatmap_data cache acts st rangeVal).1.count
        + (get_heatmap_data cache acts st rangeVal).1.missing_count
        + acts.countP (fun a => decide (cacheGet cache a.activityId = some []))
        + acts.countP (fun a => decide (cacheGet cache a.activityId = none) && !heatCandidate a)
        = (get_heatmap_data cache acts st rangeVal).1.total_activities
    ∧ (get_heatmap_data cache acts st rangeVal).1.count
        + (get_heatmap_data cache acts st rangeVal).1.missing_count
        ≤ (get_heatmap_data cache acts st rangeVal).1.total_activities := by
  have hc := heatmapPartition_counts cache acts
  refine ⟨rfl, ?_, ?_⟩
  · simpa [get_heatmap_data] using hc
  · simp only [get_heatmap_data]
    omega

end GarminDash
